import Mathlib

/-!
Verification development for the tool-augmented agent repository
(`myagent.py`, `mytools.py`).

The Python source is shallowly embedded: pure string manipulation is
translated to executable Lean functions on `String` / `List Char`;
Python exceptions become explicit `Except` / sum results; collaborators
that perform network I/O (the HTTP session, `WebBaseLoader`,
`BeautifulSoup`'s HTML parse) are passed in as functional parameters or
already-parsed data, so that every code path of the repository's own
logic is represented.

Modelling notes, applying throughout:
* Python `str` operations are modelled at the character level. `%XX`
  percent-escapes are decoded byte-wise, which coincides with CPython's
  `urllib.parse.unquote` on ASCII data (multi-byte UTF-8 escape
  sequences are outside the scope of every claim checked here).
* `str.strip()` / `str.lower()` are modelled for ASCII whitespace and
  ASCII letters, which again coincides with CPython on the inputs of
  interest.
* `urllib.parse.urlparse` is modelled for its `scheme`, `netloc` and
  `query` components, omitting CPython's IPv6-bracket validation and
  its stripping of tab/CR/LF bytes; no claim involves such inputs.
-/

/-! ## Generic character-list helpers -/

/-- Boolean prefix test on character lists. -/
def listIsPre : List Char → List Char → Bool
  | [], _ => true
  | _ :: _, [] => false
  | a :: as, b :: bs => a == b && listIsPre as bs

/-- Boolean prefix test on strings (model of Python `str.startswith`). -/
def strStartsWith (p s : String) : Bool := listIsPre p.toList s.toList

/-- Split a character list at the first occurrence of `needle`:
returns the part before and the part after, or `none` when `needle`
does not occur (model of Python `sep in s` / `s.split(sep, 1)`). -/
def splitFirstList (needle : List Char) : List Char → Option (List Char × List Char)
  | [] => if needle.isEmpty then some ([], []) else none
  | c :: rest =>
    if listIsPre needle (c :: rest) then some ([], (c :: rest).drop needle.length)
    else match splitFirstList needle rest with
      | some (a, b) => some (c :: a, b)
      | none => none

/-- Split a string at the first occurrence of `needle`. -/
def strSplitFirst (needle s : String) : Option (String × String) :=
  match splitFirstList needle.toList s.toList with
  | some (a, b) => some (a.asString, b.asString)
  | none => none

/-- Substring membership (model of Python `needle in s`). -/
def strContainsSub (needle s : String) : Bool := (strSplitFirst needle s).isSome

/-- Membership of a character in a character list. -/
def containsChar (c : Char) (cs : List Char) : Bool := cs.any (fun x => x == c)

/-- Characters before the first occurrence of `c` (whole list if absent). -/
def beforeCharList (c : Char) (cs : List Char) : List Char :=
  cs.takeWhile (fun x => x != c)

/-- Characters after the first occurrence of `c` (empty if absent). -/
def afterCharList (c : Char) : List Char → List Char
  | [] => []
  | x :: rest => if x == c then rest else afterCharList c rest

/-- ASCII whitespace, as stripped by Python `str.strip()`. -/
def isPySpace (c : Char) : Bool := c == ' ' || c == '\t' || c == '\n' || c == '\r'

/-- Model of Python `str.strip()` (ASCII whitespace). -/
def pyStrip (s : String) : String :=
  (((s.toList.dropWhile isPySpace).reverse.dropWhile isPySpace).reverse).asString

/-- ASCII lower-casing of one character (model of `str.lower()` per char). -/
def lowerChar (c : Char) : Char :=
  if 'A' ≤ c && c ≤ 'Z' then Char.ofNat (c.toNat + 32) else c

/-- Model of Python `str.lower()` (ASCII letters). -/
def pyLower (s : String) : String := (s.toList.map lowerChar).asString

/-! ## Percent-encoding and decoding (`urllib.parse.quote` / `unquote`) -/

/-- Hexadecimal digit test. -/
def isHexB (c : Char) : Bool :=
  ('0' ≤ c && c ≤ '9') || ('a' ≤ c && c ≤ 'f') || ('A' ≤ c && c ≤ 'F')

/-- Numeric value of a hexadecimal digit (0 on non-digits). -/
def hexVal (c : Char) : Nat :=
  if '0' ≤ c && c ≤ '9' then c.toNat - 48
  else if 'a' ≤ c && c ≤ 'f' then c.toNat - 87
  else if 'A' ≤ c && c ≤ 'F' then c.toNat - 55
  else 0

/-- Model of `urllib.parse.unquote` on character lists: a `%` followed
by two hex digits decodes to that byte, malformed escapes are left
verbatim. -/
def unquoteList : List Char → List Char
  | [] => []
  | '%' :: h1 :: h2 :: rest =>
    if isHexB h1 && isHexB h2 then
      Char.ofNat (hexVal h1 * 16 + hexVal h2) :: unquoteList rest
    else '%' :: unquoteList (h1 :: h2 :: rest)
  | c :: rest => c :: unquoteList rest

/-- Model of `urllib.parse.unquote`. -/
def pyUnquote (s : String) : String := (unquoteList s.toList).asString

/-- `'+'` to space replacement, the first half of `unquote_plus`. -/
def plusToSpace (s : String) : String :=
  (s.toList.map (fun c => if c == '+' then ' ' else c)).asString

/-- Model of `urllib.parse.unquote_plus` (used inside `parse_qs`). -/
def pyUnquotePlus (s : String) : String := pyUnquote (plusToSpace s)

/-- Unreserved characters never percent-encoded by `urllib.parse.quote`. -/
def isUnreservedB (c : Char) : Bool :=
  c.isAlpha || c.isDigit || c == '-' || c == '_' || c == '.' || c == '~'

/-- Upper-case hexadecimal digit of a value below 16. -/
def hexDigitUpper (n : Nat) : Char :=
  if n < 10 then Char.ofNat (48 + n) else Char.ofNat (55 + n)

/-- Percent-encoding of a single character. -/
def quoteChar (c : Char) : List Char :=
  if isUnreservedB c then [c]
  else ['%', hexDigitUpper (c.toNat / 16), hexDigitUpper (c.toNat % 16)]

/-- Model of `urllib.parse.quote` with no extra safe characters: the
standard single percent-encoding a search engine applies to the
destination URL it embeds in a redirect wrapper. -/
def pyQuote (s : String) : String := (s.toList.flatMap quoteChar).asString

/-! ## `urllib.parse.urlparse`: scheme, netloc, query -/

/-- Characters allowed in a URL scheme after the initial letter. -/
def isSchemeChar (c : Char) : Bool :=
  c.isAlpha || c.isDigit || c == '+' || c == '-' || c == '.'

/-- Scheme splitting of `urlsplit`: when the text before the first `:`
is a well-formed scheme, return it lower-cased together with the
remainder. -/
def splitScheme (cs : List Char) : Option (List Char × List Char) :=
  if containsChar ':' cs then
    match beforeCharList ':' cs with
    | [] => none
    | c0 :: pre =>
      if c0.isAlpha && (c0 :: pre).all isSchemeChar then
        some ((c0 :: pre).map lowerChar, afterCharList ':' cs)
      else none
  else none

/-- The `scheme` component of `urlparse`. -/
def pyScheme (u : String) : String :=
  match splitScheme u.toList with
  | some (s, _) => s.asString
  | none => ""

/-- The URL text with a recognised scheme removed. -/
def restAfterScheme (u : String) : List Char :=
  match splitScheme u.toList with
  | some (_, r) => r
  | none => u.toList

/-- The `netloc` component of `urlparse`: present only after `//`,
extending to the next `/`, `?` or `#`. -/
def pyNetloc (u : String) : String :=
  match restAfterScheme u with
  | '/' :: '/' :: rest =>
    (rest.takeWhile (fun c => c != '/' && c != '?' && c != '#')).asString
  | _ => ""

/-- The `query` component of `urlparse`: the text after the first `?`
of the part preceding any fragment. -/
def pyQueryOf (u : String) : String :=
  (afterCharList '?' (beforeCharList '#' u.toList)).asString

/-! ## `urllib.parse.parse_qs`, restricted to the lookup the code does -/

/-- Split a query string on every `&` (model of `qs.split(sep)`). -/
def splitAmp : List Char → List (List Char)
  | [] => [[]]
  | c :: rest =>
    if c == '&' then [] :: splitAmp rest
    else match splitAmp rest with
      | g :: gs => (c :: g) :: gs
      | [] => [[c]]

/-- First decoded value bound to `key` among `name=value` fields, as
`parse_qs(qs)[key][0]` produces it: fields without `=` or with an
empty raw value are skipped, names and values are `unquote_plus`-decoded. -/
def findParamFirst (key : String) : List (List Char) → Option String
  | [] => none
  | p :: rest =>
    if containsChar '=' p then
      match afterCharList '=' p with
      | [] => findParamFirst key rest
      | v0 :: v1 =>
        if pyUnquotePlus (beforeCharList '=' p).asString == key then
          some (pyUnquotePlus (v0 :: v1).asString)
        else findParamFirst key rest
    else findParamFirst key rest

/-- `parse_qs(qs)[key][0]` wrapped in `Option`: `none` is the `KeyError`
path. -/
def parseQsFirst (qs key : String) : Option String :=
  findParamFirst key (splitAmp qs.toList)

/-! ## `WebSearchTool._unwrap_ddg_redirect` -/

/-- Embedding of `WebSearchTool._unwrap_ddg_redirect`: on a
`https://duckduckgo.com/l/` wrapper, look up the `uddg` query parameter
via `parse_qs` and apply one further `unquote`; any failure of that
lookup (the bare `except`) returns the original URL. -/
def unwrapDdgRedirect (u : String) : String :=
  if strStartsWith "https://duckduckgo.com/l/" u then
    match parseQsFirst (pyQueryOf u) "uddg" with
    | some v => pyUnquote v
    | none => u
  else u

/-- A redirect wrapper encoding destination `dest`: the claim-side
construction of "a search-engine redirect wrapper encoding destination
URL D", namely the `uddg` parameter carrying the standard
percent-encoding of `dest`. -/
def ddgWrap (dest : String) : String :=
  "https://duckduckgo.com/l/?uddg=" ++ pyQuote dest

/-! ## `WebSearchTool._parse_and_format_results` and `_format_output`

`BeautifulSoup`'s HTML parse is an external collaborator; its output —
the list of `div.result` blocks, each with its optional
`a.result__a` link (href attribute plus stripped text) and optional
`a.result__snippet` text — is the embedded input type. -/

/-- The `a.result__a` element of a result block: `href` attribute (may
be absent) and stripped text content. -/
structure RLink where
  href : Option String
  text : String
deriving DecidableEq

/-- One `div.result` block as the search client sees it after the soup
lookup: the link element and the snippet text, each possibly absent. -/
structure ResultBlock where
  link : Option RLink
  snippet : Option String
deriving DecidableEq

/-- The SearchResult record built per block (`title`/`url`/`snippet`/`domain`). -/
structure SearchResult where
  title : String
  url : String
  snippet : String
  domain : String
deriving DecidableEq

/-- The per-block body of the collection loop: blocks missing link or
snippet yield nothing (`continue`); otherwise `href` defaults to `""`,
the DDG redirect is unwrapped and the domain is the netloc of the
resolved URL. -/
def blockEntry (b : ResultBlock) : Option SearchResult :=
  match b.link, b.snippet with
  | some l, some sn =>
    let raw := match l.href with
      | some h => h
      | none => ""
    let url := unwrapDdgRedirect raw
    some { title := l.text, url := url, snippet := sn, domain := pyNetloc url }
  | _, _ => none

/-- The collection loop of `_parse_and_format_results`: append each
parsed entry, and `break` as soon as the accumulated count (tracked
here as `n`) has reached `max_results` — the check happens after the
append, exactly as in the source. -/
def collectAux (maxR : Nat) : List ResultBlock → Nat → List SearchResult
  | [], _ => []
  | b :: rest, n =>
    match blockEntry b with
    | none => collectAux maxR rest n
    | some e => if maxR ≤ n + 1 then [e] else e :: collectAux maxR rest (n + 1)

/-- The sequence of SearchResult entries collected for a parsed page. -/
def collectResults (maxR : Nat) (blocks : List ResultBlock) : List SearchResult :=
  collectAux maxR blocks 0

/-- One numbered entry of `_format_output`. -/
def formatEntry (idx : Nat) (r : SearchResult) : String :=
  toString idx ++ ". **[" ++ r.title ++ "](" ++ r.url ++ ")**\n*" ++
    r.domain ++ "*\n" ++ r.snippet ++ "\n"

/-- Numbered rendering starting at index 1 (`enumerate(results, 1)`). -/
def formatEntries : Nat → List SearchResult → List String
  | _, [] => []
  | i, r :: rest => formatEntry i r :: formatEntries (i + 1) rest

/-- Embedding of `WebSearchTool._format_output`. -/
def formatOutput (rs : List SearchResult) : String :=
  if rs.isEmpty then "No results found."
  else String.intercalate "\n" ("## Search Results" :: formatEntries 1 rs)

/-- Embedding of `WebSearchTool._parse_and_format_results`. -/
def parseAndFormatResults (maxR : Nat) (blocks : List ResultBlock) : String :=
  formatOutput (collectResults maxR blocks)

/-! ## `WebSearchTool.search` and the `web_search` tool

The network (`_fetch_search_html` plus the soup parse) is a
collaborator: a function `net` from the query to either the parsed
result blocks or the text of the exception the fetch raised
(`raise_for_status`, timeouts, connection errors). -/

/-- The fallible body of `WebSearchTool.search` in the exception monad:
fetching may raise; parsing and formatting are total. -/
def searchBody (net : String → Except String (List ResultBlock)) (maxR : Nat)
    (q : String) : Except String String := do
  let blocks ← net q
  pure (parseAndFormatResults maxR blocks)

/-- Embedding of `WebSearchTool.search`: the `try`/`except` catches any
exception and degrades it to a "Search error: …" string. -/
def searchTool (net : String → Except String (List ResultBlock)) (maxR : Nat)
    (q : String) : String :=
  match searchBody net maxR q with
  | .ok s => s
  | .error e => "Search error: " ++ e

/-- The `query.split("site:", 1)` step of `web_search`, performed only
when the query contains `"site:"`. -/
def siteSplit (q : String) : Option (String × String) := strSplitFirst "site:" q

/-- The query string the underlying search is invoked with: the part
before `"site:"` when present (otherwise the whole query), stripped. -/
def effQuery (q : String) : String :=
  match siteSplit q with
  | some (base, _) => pyStrip base
  | none => pyStrip q

/-- The fallible body of the `web_search` tool's `try` block: split off
an optional `site:` domain, search with the stripped base query, and
append the domain annotation only when the split-off part is non-empty
(Python's `if domain:` truthiness). -/
def webSearchBody (net : String → Except String (List ResultBlock)) (maxR : Nat)
    (q : String) : Except String String := do
  let sr := searchTool net maxR (effQuery q)
  match siteSplit q with
  | some (_, dom) =>
    if dom = "" then pure sr
    else pure (sr ++ "\nDomain filter: " ++ pyStrip dom)
  | none => pure sr

/-- Embedding of the `web_search` tool: any exception escaping the body
would be degraded to a "Web search failed: …" string. -/
def webSearchTool (net : String → Except String (List ResultBlock)) (maxR : Nat)
    (q : String) : String :=
  match webSearchBody net maxR q with
  | .ok s => s
  | .error e => "Web search failed: " ++ e

/-! ## The `calculator` tool

Numeric operands (`Union[int, float]`) are embedded as exact rationals;
the claims under check concern exact arithmetic, so IEEE rounding of the
final `float(result)` conversion is abstracted away. Python exceptions
are explicit constructors: the guarded `raise ValueError` paths and the
unguarded `ZeroDivisionError` that `a % 0` raises. -/

/-- Outcome of a calculator call: a float result, a raised `ValueError`
with its message, or the unguarded `ZeroDivisionError` from `%`. -/
inductive CalcResult where
  | ok (r : ℚ)
  | valueError (msg : String)
  | zeroDivisionError
deriving DecidableEq

/-- Floor of a rational, computed on the normalised fraction. -/
def ratFloorQ (q : ℚ) : Int := Int.fdiv q.num q.den

/-- Python's `%` on numbers (floored modulus, sign following `b`),
defined for non-zero `b`. -/
def pyMod (a b : ℚ) : ℚ := a - b * (ratFloorQ (a / b) : ℚ)

/-- Embedding of the `calculator` tool body. -/
def calculator (a b : ℚ) (operation : String) : CalcResult :=
  if operation == "add" || operation == "sum" then .ok (a + b)
  else if operation == "subtract" then .ok (a - b)
  else if operation == "multiply" then .ok (a * b)
  else if operation == "divide" || operation == "div" then
    if b = 0 then .valueError "Cannot divide by zero."
    else .ok (a / b)
  else if operation == "modulus" || operation == "mod" then
    if b = 0 then .zeroDivisionError
    else .ok (pyMod a b)
  else
    .valueError ("Unsupported operation: " ++ operation ++ ". " ++
      "Use one of: add, subtract, multiply, divide, modulus " ++
      "or try the 'wolfram_query' tool for complex math.")

/-- The supported operation names, aliases included. -/
def supportedOps : List String :=
  ["add", "sum", "subtract", "multiply", "divide", "div", "modulus", "mod"]

/-- The exact mathematical result each supported operation denotes,
written from the spec's description of the operations (`add(a,b) = a+b`,
…, with `%` Python's floored modulus). -/
def specArith (operation : String) (a b : ℚ) : ℚ :=
  if operation == "add" || operation == "sum" then a + b
  else if operation == "subtract" then a - b
  else if operation == "multiply" then a * b
  else if operation == "divide" || operation == "div" then a / b
  else pyMod a b

/-! ## The `web_page_text_extractor` tool

`WebBaseLoader` is a collaborator: a function from the cleaned URL to
either the list of loaded documents' `page_content` or the text of the
exception the load raised. -/

/-- Result of `WebBaseLoader(url).load()`: the documents, or a raised
exception's text. -/
inductive LoaderOutcome where
  | docs (pages : List String)
  | failure (e : String)
deriving DecidableEq

/-- Step 1 of the tool: `url.strip().lower()`. -/
def urlCleanOf (url : String) : String := pyLower (pyStrip url)

/-- Step 2, the validation condition: http/https scheme and non-empty
netloc of the cleaned URL. -/
def urlValid (c : String) : Bool :=
  (pyScheme c == "http" || pyScheme c == "https") && pyNetloc c != ""

/-- Steps 3–4 of the tool, entered only after validation: load, report
an empty result, or concatenate the page contents; a loader exception
degrades to the labeled failure string. -/
def extractorLoadBranch (loader : String → LoaderOutcome) (c : String) : String :=
  match loader c with
  | .failure e => "[Tool: WebBaseLoader ERROR] Failed to extract content from " ++ c ++ ": " ++ e
  | .docs [] => "[Tool: WebBaseLoader] No content found at " ++ c
  | .docs (p :: ps) => "[Tool: WebBaseLoader]\n" ++ String.intercalate "\n\n" (p :: ps)

/-- Embedding of the `web_page_text_extractor` tool. -/
def webPageTextExtractor (loader : String → LoaderOutcome) (url : String) : String :=
  if urlValid (urlCleanOf url) then extractorLoadBranch loader (urlCleanOf url)
  else "[Tool: WebBaseLoader ERROR] Invalid URL: " ++ urlCleanOf url

/-! ## The Orchestration Loop (spec §4.1) -/

/-- Message roles of the Conversation. -/
inductive Role where
  | system
  | user
  | assistant
  | tool
deriving DecidableEq

/-- A model-issued request to invoke a named tool. -/
structure ToolCallRequest where
  name : String
  args : String
  callId : Nat
deriving DecidableEq

/-- A Conversation message: role, text content, and the tool-call
requests an assistant message may carry. -/
structure Message where
  role : Role
  content : String
  calls : List ToolCallRequest
deriving DecidableEq

/-- A Model Gateway reply: a final textual answer, or one or more
tool-call requests. -/
inductive GwReply where
  | finalAnswer (text : String)
  | toolRequests (reqs : List ToolCallRequest)

/-- Terminal outcome of a run: `Done` with the answer, or `Failed` with
the limiting condition. -/
inductive Outcome where
  | done (answer : String)
  | failed (condition : String)
deriving DecidableEq

/-- What a finished run reports: the outcome, how many times the Model
Gateway was invoked, and the accumulated Conversation. -/
structure RunResult where
  outcome : Outcome
  modelInvocations : Nat
  conversation : List Message
deriving DecidableEq

/-- Modelled from the spec: the Orchestration Loop state machine of
§4.1. The repository's `my_agent` only declares the graph topology
(START → assistant, assistant → tools or END by `tools_condition`,
tools → assistant); the loop driver itself — the `AwaitingModel` /
`AwaitingTools` alternation with a turn counter and the `Failed`
"turn limit exceeded" outcome — lives in the external LangGraph runtime
and is absent from `src/`, so it is modelled from the spec's words:
the turn counter increments once per `AwaitingModel` entry, and if it
exceeds `maxTurns` before `Done` is reached the loop transitions to
`Failed` without invoking the model again; otherwise the gateway is
invoked, a final answer reaches `Done`, and tool requests are each
answered by exactly one tool message before re-entering `AwaitingModel`. -/
def loopAux (gw : List Message → GwReply) (tools : ToolCallRequest → String)
    (maxTurns : Nat) (conv : List Message) (turns invocations : Nat) : RunResult :=
  if _h : maxTurns < turns + 1 then
    { outcome := .failed "turn limit exceeded", modelInvocations := invocations,
      conversation := conv }
  else
    match gw conv with
    | .finalAnswer text =>
      { outcome := .done text, modelInvocations := invocations + 1,
        conversation := conv ++ [⟨.assistant, text, []⟩] }
    | .toolRequests reqs =>
      loopAux gw tools maxTurns
        (conv ++ ⟨.assistant, "", reqs⟩ :: reqs.map (fun r => ⟨.tool, tools r, []⟩))
        (turns + 1) (invocations + 1)
termination_by maxTurns + 1 - turns
decreasing_by omega

/-- Modelled from the spec: `run(userInput, maxTurns)` starts in
`AwaitingModel` with Conversation = [system message, user message] and
both counters at zero. -/
def runLoop (gw : List Message → GwReply) (tools : ToolCallRequest → String)
    (maxTurns : Nat) (userInput : String) : RunResult :=
  loopAux gw tools maxTurns [⟨.system, "system prompt", []⟩, ⟨.user, userInput, []⟩] 0 0

/-! ## Concrete stubs and inputs used by witnesses and counterexamples -/

/-- A well-formed result block whose resolved URL is fixed. -/
def dupBlock : ResultBlock :=
  { link := some { href := some "https://example.com/", text := "Example" },
    snippet := some "snippet text" }

/-- Two well-formed blocks carrying the same URL. -/
def dupBlocks : List ResultBlock := [dupBlock, dupBlock]

/-- A network stub whose fetch succeeds with no parsable blocks. -/
def emptyNet : String → Except String (List ResultBlock) := fun _ => .ok []

/-- A network stub whose fetch raises. -/
def errNet : String → Except String (List ResultBlock) := fun _ => .error "boom"

/-- A loader stub returning one document. -/
def oneDocLoader : String → LoaderOutcome := fun _ => .docs ["page text"]

/-- A Model Gateway stub that always requests a tool call. -/
def stubGw : List Message → GwReply :=
  fun _ => .toolRequests [⟨"calculator", "(1, 2, add)", 1⟩]

/-- A tool-dispatch stub. -/
def stubTools : ToolCallRequest → String := fun _ => "3.0"

/-! # Theorems -/

/-! ## Calculator (claims C5, C6, C9) -/

/-- C5: for every numeric a, divide-by-zero (under both the divide and
div spellings) fails with the ValueError whose message is the
divide-by-zero domain error, and every operation name outside the
supported set fails with the ValueError naming that operation and
suggesting the valid operation set plus the wolfram_query fallback
tool; neither path is a crash of the tool dispatcher — both are raised
ValueErrors the tool layer surfaces as tool-result error text. -/
theorem calculator_divzero_and_unknown_op (a b : ℚ) (op : String)
    (hop : op ∉ supportedOps) :
    calculator a 0 "divide" = .valueError "Cannot divide by zero." ∧
    calculator a 0 "div" = .valueError "Cannot divide by zero." ∧
    calculator a b op = .valueError ("Unsupported operation: " ++ op ++ ". " ++
      "Use one of: add, subtract, multiply, divide, modulus " ++
      "or try the 'wolfram_query' tool for complex math.") := by
  refine ⟨rfl, rfl, ?_⟩
  simp only [supportedOps, List.mem_cons, List.not_mem_nil, or_false, not_or] at hop
  obtain ⟨h1, h2, h3, h4, h5, h6, h7, h8⟩ := hop
  simp only [calculator, Bool.or_eq_true, beq_iff_eq]
  rw [if_neg (by tauto), if_neg h3, if_neg h4, if_neg (by tauto), if_neg (by tauto)]

/-- Witness for C5 at a = 7, b = 2, op = "power". -/
theorem calculator_divzero_and_unknown_op_witness :
    calculator 7 0 "divide" = .valueError "Cannot divide by zero." ∧
    calculator 7 0 "div" = .valueError "Cannot divide by zero." ∧
    calculator 7 2 "power" = .valueError ("Unsupported operation: " ++ "power" ++ ". " ++
      "Use one of: add, subtract, multiply, divide, modulus " ++
      "or try the 'wolfram_query' tool for complex math.") :=
  calculator_divzero_and_unknown_op 7 2 "power" (by decide)

/-- C9: modulus by zero is unguarded — for every numeric a, the modulus
operation (and its mod alias) with divisor 0 reaches Python's modulo
with a zero divisor and raises an unhandled ZeroDivisionError, while
the division-by-zero guard (the raised ValueError) applies only to the
divide/div operation. -/
theorem calculator_modulus_zero_unguarded (a : ℚ) :
    calculator a 0 "modulus" = .zeroDivisionError ∧
    calculator a 0 "mod" = .zeroDivisionError ∧
    calculator a 0 "divide" = .valueError "Cannot divide by zero." ∧
    calculator a 0 "div" = .valueError "Cannot divide by zero." :=
  ⟨rfl, rfl, rfl, rfl⟩

/-- C6 counterexample: at the concrete input (1, 0, "divide") — finite
numeric operands and a supported operation — the calculator does not
return a number at all: it fails with the divide-by-zero ValueError, so
the claim as stated (a returned result for all finite operands and
every supported operation) is false. -/
theorem calculator_total_counterexample :
    calculator 1 0 "divide" = .valueError "Cannot divide by zero." ∧
    "divide" ∈ supportedOps ∧ ∀ r : ℚ, calculator 1 0 "divide" ≠ .ok r := by
  refine ⟨rfl, by decide, ?_⟩
  intro r h
  simp [calculator] at h

/-- C6 (amended): for all finite numeric operands and every supported
operation, provided the divisor is non-zero when the operation is
divide/div or modulus/mod, the calculator returns exactly the
mathematical result of that operation; in particular add(a, b) = a + b. -/
theorem calculator_supported_exact (a b : ℚ) (op : String)
    (hop : op ∈ supportedOps)
    (hz : (op = "divide" ∨ op = "div" ∨ op = "modulus" ∨ op = "mod") → b ≠ 0) :
    calculator a b op = .ok (specArith op a b) ∧
    calculator a b "add" = .ok (a + b) := by
  refine ⟨?_, rfl⟩
  simp only [supportedOps, List.mem_cons, List.not_mem_nil, or_false] at hop
  rcases hop with h | h | h | h | h | h | h | h <;> subst h
  · rfl
  · rfl
  · rfl
  · rfl
  · have hb : b ≠ 0 := hz (by tauto)
    have e1 : calculator a b "divide" =
        if b = 0 then .valueError "Cannot divide by zero." else .ok (a / b) := rfl
    rw [e1, if_neg hb]; rfl
  · have hb : b ≠ 0 := hz (by tauto)
    have e1 : calculator a b "div" =
        if b = 0 then .valueError "Cannot divide by zero." else .ok (a / b) := rfl
    rw [e1, if_neg hb]; rfl
  · have hb : b ≠ 0 := hz (by tauto)
    have e1 : calculator a b "modulus" =
        if b = 0 then CalcResult.zeroDivisionError else .ok (pyMod a b) := rfl
    rw [e1, if_neg hb]; rfl
  · have hb : b ≠ 0 := hz (by tauto)
    have e1 : calculator a b "mod" =
        if b = 0 then CalcResult.zeroDivisionError else .ok (pyMod a b) := rfl
    rw [e1, if_neg hb]; rfl

/-- Witness for the amended C6 at a = 3, b = 2, op = "add". -/
theorem calculator_supported_exact_witness :
    calculator 3 2 "add" = .ok (specArith "add" 3 2) ∧
    calculator 3 2 "add" = .ok (3 + 2) :=
  calculator_supported_exact 3 2 "add" (by decide) (fun h => by simp at h)

/-! ## Orchestration loop turn limit (claim C1) -/

/-- Generalised turn-limit invariant: from any state of the loop, a
gateway that always requests tool calls drives the run to the Failed
outcome after exactly the remaining number of allowed model
invocations. -/
theorem loopAux_allTools (gw : List Message → GwReply) (tools : ToolCallRequest → String)
    (maxTurns : Nat) (hgw : ∀ conv, ∃ reqs, gw conv = .toolRequests reqs) :
    ∀ fuel turns inv conv, maxTurns + 1 - turns = fuel →
      (loopAux gw tools maxTurns conv turns inv).outcome = .failed "turn limit exceeded" ∧
      (loopAux gw tools maxTurns conv turns inv).modelInvocations = inv + (maxTurns - turns) := by
  intro fuel
  induction fuel with
  | zero =>
    intro turns inv conv hf
    have hc : maxTurns < turns + 1 := by omega
    rw [loopAux, dif_pos hc]
    exact ⟨rfl, by simp; omega⟩
  | succ k ih =>
    intro turns inv conv hf
    by_cases hc : maxTurns < turns + 1
    · rw [loopAux, dif_pos hc]
      exact ⟨rfl, by simp; omega⟩
    · rw [loopAux, dif_neg hc]
      obtain ⟨reqs, hr⟩ := hgw conv
      rw [hr]
      obtain ⟨h1, h2⟩ := ih (turns + 1) (inv + 1)
        (conv ++ ⟨.assistant, "", reqs⟩ :: reqs.map (fun r => ⟨.tool, tools r, []⟩))
        (by omega)
      exact ⟨h1, by rw [h2]; omega⟩

/-- C1: for every run driven by a Model Gateway stub that always
requests a tool call, the loop reaches the Failed outcome with the
reported, non-fatal "turn limit exceeded" condition after exactly
maxTurns model invocations — never fewer, never more. -/
theorem runLoop_turn_limit (gw : List Message → GwReply) (tools : ToolCallRequest → String)
    (maxTurns : Nat) (userInput : String)
    (hgw : ∀ conv, ∃ reqs, gw conv = .toolRequests reqs) :
    (runLoop gw tools maxTurns userInput).outcome = .failed "turn limit exceeded" ∧
    (runLoop gw tools maxTurns userInput).modelInvocations = maxTurns := by
  obtain ⟨h1, h2⟩ := loopAux_allTools gw tools maxTurns hgw (maxTurns + 1) 0 0
    [⟨.system, "system prompt", []⟩, ⟨.user, userInput, []⟩] (by omega)
  exact ⟨h1, by rw [runLoop, h2]; omega⟩

/-- Witness for C1: the concrete always-tool-calling stub with
maxTurns = 3 fails with "turn limit exceeded" after exactly 3 model
invocations. -/
theorem runLoop_turn_limit_witness :
    (runLoop stubGw stubTools 3 "question").outcome = .failed "turn limit exceeded" ∧
    (runLoop stubGw stubTools 3 "question").modelInvocations = 3 :=
  runLoop_turn_limit stubGw stubTools 3 "question" (fun _ => ⟨_, rfl⟩)

/-! ## String-containment helper lemmas -/

/-- Every list is a Boolean prefix of itself extended on the right. -/
theorem listIsPre_append_self (xs ys : List Char) : listIsPre xs (xs ++ ys) = true := by
  induction xs with
  | nil => rfl
  | cons a as ih => simp [listIsPre, ih]

/-- A first-occurrence split succeeds whenever the needle is a prefix. -/
theorem splitFirstList_isSome (n l : List Char) (h : listIsPre n l = true) :
    (splitFirstList n l).isSome = true := by
  cases l with
  | nil =>
    cases n with
    | nil => rfl
    | cons a as => simp [listIsPre] at h
  | cons c rest => simp [splitFirstList, h]

/-- Substring membership reduces to the list-level split. -/
theorem strContainsSub_isSome (n s : String) :
    strContainsSub n s = (splitFirstList n.toList s.toList).isSome := by
  unfold strContainsSub strSplitFirst
  cases splitFirstList n.toList s.toList <;> simp

/-- A string contains every string it starts with. -/
theorem strContainsSub_prefix (p t : String) : strContainsSub p (p ++ t) = true := by
  rw [strContainsSub_isSome]
  apply splitFirstList_isSome
  have he : (p ++ t).toList = p.toList ++ t.toList := rfl
  rw [he]
  exact listIsPre_append_self _ _

/-- A string contains itself. -/
theorem strContainsSub_self (p : String) : strContainsSub p p = true := by
  rw [strContainsSub_isSome]
  apply splitFirstList_isSome
  have := listIsPre_append_self p.toList []
  rwa [List.append_nil] at this

/-! ## Search-result collection (claim C2) -/

/-- The collection loop equals a take of the full in-order entry
stream: capacity is maxResults, except that the post-append break
still admits one entry when maxResults = 0. -/
theorem collectAux_eq_take (maxR : Nat) (blocks : List ResultBlock) :
    ∀ n, collectAux maxR blocks n = (blocks.filterMap blockEntry).take (max (maxR - n) 1) := by
  induction blocks with
  | nil => intro n; simp [collectAux]
  | cons b rest ih =>
    intro n
    cases hb : blockEntry b with
    | none => rw [collectAux, hb, List.filterMap_cons_none hb, ih]
    | some e =>
      simp only [collectAux, hb]
      rw [List.filterMap_cons_some hb]
      by_cases hle : maxR ≤ n + 1
      · rw [if_pos hle]
        have hm : max (maxR - n) 1 = 1 := by omega
        rw [hm, List.take_succ_cons, List.take_zero]
      · rw [if_neg hle, ih (n + 1)]
        have hm : max (maxR - n) 1 = max (maxR - (n + 1)) 1 + 1 := by omega
        rw [hm, List.take_succ_cons]

/-- C2 (amended): the entries collected by the search client are an
in-document-order subsequence of all parsed entries, and their count is
at most max maxResults 1 — hence at most maxResults (default 5)
whenever maxResults ≥ 1; because the cap is checked only after an
append, maxResults = 0 still admits one entry, and entries with
duplicate urls are not filtered out. -/
theorem collectResults_cap_and_order (maxR : Nat) (blocks : List ResultBlock) :
    List.Sublist (collectResults maxR blocks) (blocks.filterMap blockEntry) ∧
    (collectResults maxR blocks).length ≤ max maxR 1 ∧
    (1 ≤ maxR → (collectResults maxR blocks).length ≤ maxR) := by
  unfold collectResults
  rw [collectAux_eq_take]
  refine ⟨List.take_sublist _ _, ?_, ?_⟩
  · rw [List.length_take]; omega
  · intro h1; rw [List.length_take]; omega

/-- Witness for the amended C2: with ten well-formed blocks and the
default cap 5, at most five entries are collected. -/
theorem collectResults_cap_and_order_witness :
    (collectResults 5 (List.replicate 10 dupBlock)).length ≤ 5 :=
  (collectResults_cap_and_order 5 (List.replicate 10 dupBlock)).2.2 (by decide)

/-- C2 counterexample: two well-formed blocks carrying the same href
yield two collected entries with the same url — the claimed
no-duplicate-urls invariant is false at this concrete parsed input. -/
theorem collectResults_dup_counterexample :
    (collectResults 5 dupBlocks).map SearchResult.url =
      ["https://example.com/", "https://example.com/"] ∧
    ¬ (collectResults 5 dupBlocks).Pairwise (fun r s => r.url ≠ s.url) := by
  constructor
  · decide
  · decide

/-! ## Web search totality and degradation (claim C3) -/

/-- Case computation of the web_search tool: the underlying search is
always invoked with the stripped base query, and the domain annotation
is appended only when the part after site: is non-empty. -/
theorem webSearchTool_cases (net : String → Except String (List ResultBlock))
    (maxR : Nat) (q : String) :
    webSearchTool net maxR q = (match siteSplit q with
      | none => searchTool net maxR (pyStrip q)
      | some (base, dom) =>
        if dom = "" then searchTool net maxR (pyStrip base)
        else searchTool net maxR (pyStrip base) ++ "\nDomain filter: " ++ pyStrip dom) := by
  unfold webSearchTool webSearchBody effQuery
  rcases siteSplit q with _ | ⟨base, dom⟩
  · rfl
  · dsimp only
    by_cases hd : dom = ""
    · rw [if_pos hd, if_pos hd]
      rfl
    · rw [if_neg hd, if_neg hd]
      rfl

/-- The try-body of the web_search tool never escapes with an
exception: it always produces an ok value, which is exactly what the
tool returns. -/
theorem webSearchBody_ok (net : String → Except String (List ResultBlock))
    (maxR : Nat) (q : String) :
    webSearchBody net maxR q = .ok (webSearchTool net maxR q) := by
  unfold webSearchTool webSearchBody effQuery
  rcases siteSplit q with _ | ⟨base, dom⟩
  · rfl
  · dsimp only
    by_cases hd : dom = ""
    · rw [if_pos hd]
      rfl
    · rw [if_neg hd]
      rfl

/-- On a fetch exception the search method degrades it to the labeled
error string. -/
theorem searchTool_error (net : String → Except String (List ResultBlock))
    (maxR : Nat) (q : String) (e : String) (he : net q = .error e) :
    searchTool net maxR q = "Search error: " ++ e := by
  unfold searchTool searchBody
  rw [he]
  rfl

/-- C3: for every query string and every network outcome, the web
search tool returns a text report without raising — its try-body always
evaluates to an ok string — and every fetch failure degrades to the
"Search error: …" string embedded in the returned text. -/
theorem webSearch_total_and_degrades (net : String → Except String (List ResultBlock))
    (maxR : Nat) (q : String) :
    (∃ s, webSearchBody net maxR q = .ok s ∧ webSearchTool net maxR q = s) ∧
    (∀ e, net (effQuery q) = .error e →
      strContainsSub ("Search error: " ++ e) (webSearchTool net maxR q) = true) := by
  refine ⟨⟨webSearchTool net maxR q, webSearchBody_ok net maxR q, rfl⟩, ?_⟩
  intro e he
  have hst : searchTool net maxR (effQuery q) = "Search error: " ++ e :=
    searchTool_error net maxR (effQuery q) e he
  rw [webSearchTool_cases]
  unfold effQuery at hst
  rcases hq : siteSplit q with _ | ⟨base, dom⟩ <;> rw [hq] at hst
  · simp only [hst]
    exact strContainsSub_self _
  · by_cases hd : dom = ""
    · simp only [if_pos hd, hst]
      exact strContainsSub_self _
    · simp only [if_neg hd, hst]
      rw [String.append_assoc]
      exact strContainsSub_prefix _ _

/-- Witness for C3: a fetch stub that raises "boom" yields a report
embedding "Search error: boom". -/
theorem webSearch_total_and_degrades_witness :
    strContainsSub ("Search error: " ++ "boom") (webSearchTool errNet 5 "hello") = true :=
  (webSearch_total_and_degrades errNet 5 "hello").2 "boom" rfl

/-! ## site: filter handling (claim C8) -/

/-- C8 counterexample: the query "x site:" contains the site: substring,
yet the returned report carries no domain-filter annotation — the part
after site: is empty, and Python's `if domain:` skips the append. -/
theorem webSearch_siteFilter_counterexample :
    strContainsSub "site:" "x site:" = true ∧
    webSearchTool emptyNet 5 "x site:" = "No results found." ∧
    strContainsSub "Domain filter:" (webSearchTool emptyNet 5 "x site:") = false := by
  refine ⟨by decide, by decide, by decide⟩

/-- C8 (amended): for every query containing a site: substring, web
search splits it at the first site: into the base query and a domain
filter, invokes the underlying search only with the stripped base
query, and — only when the domain filter is non-empty — appends it to
the formatted report as a client-side annotation; the filter never
reaches the underlying search request. -/
theorem webSearch_site_filter (net : String → Except String (List ResultBlock))
    (maxR : Nat) (q base dom : String)
    (hsplit : strSplitFirst "site:" q = some (base, dom)) :
    webSearchTool net maxR q =
      (if dom = "" then searchTool net maxR (pyStrip base)
       else searchTool net maxR (pyStrip base) ++ "\nDomain filter: " ++ pyStrip dom) := by
  rw [webSearchTool_cases]
  have hq : siteSplit q = some (base, dom) := hsplit
  rw [hq]

/-- Witness for the amended C8 at the query "lean site:example.org". -/
theorem webSearch_site_filter_witness :
    webSearchTool emptyNet 5 "lean site:example.org" =
      searchTool emptyNet 5 (pyStrip "lean ") ++ "\nDomain filter: " ++ pyStrip "example.org" := by
  rw [webSearch_site_filter emptyNet 5 "lean site:example.org" "lean " "example.org" (by decide),
    if_neg (by decide)]

/-! ## Page-extraction URL validation (claims C7, C10) -/

/-- The validation condition unpacked into its scheme/netloc parts. -/
theorem urlValid_iff (c : String) :
    urlValid c = true ↔
      ((pyScheme c = "http" ∨ pyScheme c = "https") ∧ pyNetloc c ≠ "") := by
  simp [urlValid]

/-- C7: for every input URL (after the tool's strip-and-lowercase
cleaning), an http/https scheme together with a non-empty host passes
validation and the tool proceeds to the load branch, while any other
scheme, the empty string, or a host-less URL is rejected with the
labeled Invalid URL error string — identically for every loader, i.e.
before any network call is attempted. -/
theorem webPageExtractor_validation (url : String)
    (loader loader2 : String → LoaderOutcome) :
    ((pyScheme (urlCleanOf url) = "http" ∨ pyScheme (urlCleanOf url) = "https") →
      pyNetloc (urlCleanOf url) ≠ "" →
      webPageTextExtractor loader url = extractorLoadBranch loader (urlCleanOf url)) ∧
    (¬ ((pyScheme (urlCleanOf url) = "http" ∨ pyScheme (urlCleanOf url) = "https") ∧
        pyNetloc (urlCleanOf url) ≠ "") →
      webPageTextExtractor loader url =
          "[Tool: WebBaseLoader ERROR] Invalid URL: " ++ urlCleanOf url ∧
        webPageTextExtractor loader url = webPageTextExtractor loader2 url) := by
  constructor
  · intro h1 h2
    have hv : urlValid (urlCleanOf url) = true := (urlValid_iff _).mpr ⟨h1, h2⟩
    simp [webPageTextExtractor, hv]
  · intro h
    have hv : urlValid (urlCleanOf url) = false := by
      rcases Bool.eq_false_or_eq_true (urlValid (urlCleanOf url)) with ht | hf
      · exact absurd ((urlValid_iff _).mp ht) h
      · exact hf
    constructor <;> simp [webPageTextExtractor, hv]

/-- Witness for C7: a well-formed https URL reaches the load branch; an
ftp URL and the empty string are rejected with the labeled error. -/
theorem webPageExtractor_validation_witness :
    webPageTextExtractor oneDocLoader "https://example.com/page" =
      extractorLoadBranch oneDocLoader (urlCleanOf "https://example.com/page") ∧
    webPageTextExtractor oneDocLoader "ftp://example.com/x" =
      "[Tool: WebBaseLoader ERROR] Invalid URL: " ++ urlCleanOf "ftp://example.com/x" ∧
    webPageTextExtractor oneDocLoader "" =
      "[Tool: WebBaseLoader ERROR] Invalid URL: " ++ urlCleanOf "" := by
  refine ⟨?_, ?_, ?_⟩
  · exact (webPageExtractor_validation "https://example.com/page" oneDocLoader
      oneDocLoader).1 (by decide) (by decide)
  · exact ((webPageExtractor_validation "ftp://example.com/x" oneDocLoader
      oneDocLoader).2 (by decide)).1
  · exact ((webPageExtractor_validation "" oneDocLoader oneDocLoader).2 (by decide)).1

/-- Upper-case ASCII letters are changed by lower-casing (checked over
the finite uppercase range). -/
theorem lowerChar_ne_upper_fin :
    ∀ n : Fin 91, 65 ≤ n.val → lowerChar (Char.ofNat n.val) ≠ Char.ofNat n.val := by
  decide

/-- Character-level ordering bounds for an uppercase ASCII letter. -/
theorem upper_toNat_bounds (c : Char) (h1 : 'A' ≤ c) (h2 : c ≤ 'Z') :
    65 ≤ c.toNat ∧ c.toNat ≤ 90 := by
  rw [Char.le_def] at h1 h2
  constructor
  · have hA : ('A').val = UInt32.ofNat 65 := by decide
    rw [hA] at h1
    exact UInt32.le_toNat_of_le (by decide) h1
  · have hZ : ('Z').val = UInt32.ofNat 90 := by decide
    rw [hZ] at h2
    exact UInt32.toNat_le_of_le (by decide) h2

/-- Lower-casing changes every uppercase ASCII letter. -/
theorem lowerChar_ne (c : Char) (h1 : 'A' ≤ c) (h2 : c ≤ 'Z') : lowerChar c ≠ c := by
  obtain ⟨hlo, hhi⟩ := upper_toNat_bounds c h1 h2
  have hc : c = Char.ofNat c.toNat := (Char.ofNat_toNat c).symm
  rw [hc]
  exact lowerChar_ne_upper_fin ⟨c.toNat, by omega⟩ hlo

/-- A character list containing an uppercase ASCII letter is changed by
character-wise lower-casing. -/
theorem map_lowerChar_ne (cs : List Char) (h : ∃ c ∈ cs, 'A' ≤ c ∧ c ≤ 'Z') :
    cs.map lowerChar ≠ cs := by
  induction cs with
  | nil => rcases h with ⟨c, hc, _⟩; cases hc
  | cons a l ih =>
    rcases h with ⟨c, hc, hA, hZ⟩
    rcases List.mem_cons.mp hc with rfl | hmem
    · simp only [List.map_cons, ne_eq, List.cons.injEq, not_and]
      intro ha
      exact absurd ha (lowerChar_ne c hA hZ)
    · simp only [List.map_cons, ne_eq, List.cons.injEq, not_and]
      intro _ hl
      exact ih ⟨c, hmem, hA, hZ⟩ hl

/-- C10: the page extractor strips then lower-cases the entire URL —
scheme, host, path and query — before validating and loading: the
loader receives exactly the lower-cased stripped URL, the cleaned URL
differs from the stripped input whenever the input contains any
uppercase ASCII letter (in particular in its path or query), and an
uppercase-scheme URL passes validation after cleaning. -/
theorem webPageExtractor_lowercases (url : String) (loader : String → LoaderOutcome) :
    (urlValid (pyLower (pyStrip url)) = true →
      webPageTextExtractor loader url = extractorLoadBranch loader (pyLower (pyStrip url))) ∧
    ((∃ c ∈ (pyStrip url).toList, 'A' ≤ c ∧ c ≤ 'Z') → urlCleanOf url ≠ pyStrip url) ∧
    urlValid (urlCleanOf "HTTP://Example.COM/Path?Q=Upper") = true ∧
    urlCleanOf "HTTP://Example.COM/Path?Q=Upper" = "http://example.com/path?q=upper" := by
  refine ⟨?_, ?_, by decide, by decide⟩
  · intro hv
    simp [webPageTextExtractor, urlCleanOf, hv]
  · intro h he
    have h2 : (pyStrip url).toList.map lowerChar = (pyStrip url).toList := by
      have h3 := congrArg String.toList he
      simpa [urlCleanOf, pyLower, List.toList_asString] using h3
    exact map_lowerChar_ne _ h h2

/-- Witness for C10 at the concrete URL " HTTP://Example.COM/Path?Q=Upper "
(uppercase scheme, host, path and query, surrounded by whitespace). -/
theorem webPageExtractor_lowercases_witness :
    webPageTextExtractor oneDocLoader " HTTP://Example.COM/Path?Q=Upper " =
      extractorLoadBranch oneDocLoader
        (pyLower (pyStrip " HTTP://Example.COM/Path?Q=Upper ")) ∧
    urlCleanOf " HTTP://Example.COM/Path?Q=Upper " ≠
      pyStrip " HTTP://Example.COM/Path?Q=Upper " := by
  constructor
  · exact (webPageExtractor_lowercases " HTTP://Example.COM/Path?Q=Upper "
      oneDocLoader).1 (by decide)
  · exact (webPageExtractor_lowercases " HTTP://Example.COM/Path?Q=Upper "
      oneDocLoader).2.1 (by decide)

/-! ## Redirect resolution (claim C4) -/

/-- Unfolding of the decoder on a non-escape head character. -/
theorem unquoteList_cons_ne (c : Char) (l : List Char) (hc : c ≠ '%') :
    unquoteList (c :: l) = c :: unquoteList l := by
  rw [unquoteList.eq_def]
  split
  · rename_i heq
    simp at heq
  · rename_i h1 h2 rest heq
    rw [List.cons.injEq] at heq
    exact absurd heq.1 hc
  · rename_i c2 rest heq
    rw [List.cons.injEq] at heq
    rw [heq.1, heq.2]

/-- Unfolding of the decoder on a well-formed escape. -/
theorem unquoteList_pct (h1 h2 : Char) (rest : List Char)
    (hh : (isHexB h1 && isHexB h2) = true) :
    unquoteList ('%' :: h1 :: h2 :: rest) =
      Char.ofNat (hexVal h1 * 16 + hexVal h2) :: unquoteList rest := by
  rw [unquoteList, if_pos hh]

/-- Decoding is the identity on percent-free text. -/
theorem unquoteList_no_pct (cs : List Char) (h : ∀ x ∈ cs, x ≠ '%') :
    unquoteList cs = cs := by
  induction cs with
  | nil => rfl
  | cons a t ih =>
    rw [unquoteList_cons_ne a t (h a (List.mem_cons_self a t)),
      ih (fun x hx => h x (List.mem_cons_of_mem a hx))]

/-- The upper-case hex digit of a value below 16 is a hex digit with
that value, and is none of the delimiter characters. -/
theorem hexDigitUpper_props (n : Nat) (hn : n < 16) :
    isHexB (hexDigitUpper n) = true ∧ hexVal (hexDigitUpper n) = n ∧
    hexDigitUpper n ≠ '#' ∧ hexDigitUpper n ≠ '&' ∧
    hexDigitUpper n ≠ '+' ∧ hexDigitUpper n ≠ '%' := by
  have hfin : ∀ m : Fin 16,
      isHexB (hexDigitUpper m.val) = true ∧ hexVal (hexDigitUpper m.val) = m.val ∧
      hexDigitUpper m.val ≠ '#' ∧ hexDigitUpper m.val ≠ '&' ∧
      hexDigitUpper m.val ≠ '+' ∧ hexDigitUpper m.val ≠ '%' := by decide
  exact hfin ⟨n, hn⟩

/-- Unreserved characters are none of the delimiter characters. -/
theorem isUnreserved_ne (c : Char) (h : isUnreservedB c = true) :
    c ≠ '#' ∧ c ≠ '&' ∧ c ≠ '+' ∧ c ≠ '%' := by
  refine ⟨?_, ?_, ?_, ?_⟩ <;> intro he <;> rw [he] at h <;> exact absurd h (by decide)

/-- No character of a percent-encoded ASCII character is a fragment or
field delimiter. -/
theorem quoteChar_not_special (c : Char) (hc : c.toNat < 128) :
    ∀ x ∈ quoteChar c, x ≠ '#' ∧ x ≠ '&' := by
  intro x hx
  unfold quoteChar at hx
  by_cases hu : isUnreservedB c = true
  · rw [if_pos hu, List.mem_singleton] at hx
    subst hx
    obtain ⟨h1, h2, _, _⟩ := isUnreserved_ne x hu
    exact ⟨h1, h2⟩
  · rw [if_neg hu] at hx
    simp only [List.mem_cons, List.not_mem_nil, or_false] at hx
    rcases hx with hx | hx | hx
    · subst hx; exact ⟨by decide, by decide⟩
    · obtain ⟨_, _, h3, h4, _, _⟩ := hexDigitUpper_props (c.toNat / 16) (by omega)
      subst hx; exact ⟨h3, h4⟩
    · obtain ⟨_, _, h3, h4, _, _⟩ := hexDigitUpper_props (c.toNat % 16) (by omega)
      subst hx; exact ⟨h3, h4⟩

/-- No character of the percent-encoding of an ASCII string is a
fragment or field delimiter. -/
theorem pyQuote_not_special (d : String) (hAscii : ∀ c ∈ d.toList, c.toNat < 128) :
    ∀ x ∈ (pyQuote d).toList, x ≠ '#' ∧ x ≠ '&' := by
  intro x hx
  unfold pyQuote at hx
  rw [List.toList_asString, List.mem_flatMap] at hx
  obtain ⟨c, hcmem, hxin⟩ := hx
  exact quoteChar_not_special c (hAscii c hcmem) x hxin

/-- Round trip of the decoding pipeline the code applies (plus-to-space
then unquote) over the standard percent-encoding, for ASCII input. -/
theorem unquote_roundtrip (cs : List Char) (h : ∀ c ∈ cs, c.toNat < 128) :
    unquoteList ((cs.flatMap quoteChar).map (fun c => if c == '+' then ' ' else c)) = cs := by
  induction cs with
  | nil => rfl
  | cons c rest ih =>
    have hc : c.toNat < 128 := h c (List.mem_cons_self c rest)
    have hrest : ∀ x ∈ rest, x.toNat < 128 := fun x hx => h x (List.mem_cons_of_mem c hx)
    rw [List.flatMap_cons, List.map_append]
    by_cases hu : isUnreservedB c = true
    · obtain ⟨_, _, hplus, hpct⟩ := isUnreserved_ne c hu
      have hq : quoteChar c = [c] := by rw [quoteChar, if_pos hu]
      have hm : List.map (fun x => if x == '+' then ' ' else x) [c] = [c] := by
        simp [hplus]
      rw [hq, hm, List.singleton_append, unquoteList_cons_ne c _ hpct, ih hrest]
    · have hq : quoteChar c =
          ['%', hexDigitUpper (c.toNat / 16), hexDigitUpper (c.toNat % 16)] := by
        rw [quoteChar, if_neg hu]
      obtain ⟨hhex1, hval1, _, _, hplus1, _⟩ := hexDigitUpper_props (c.toNat / 16) (by omega)
      obtain ⟨hhex2, hval2, _, _, hplus2, _⟩ := hexDigitUpper_props (c.toNat % 16) (by omega)
      have hm : List.map (fun x => if x == '+' then ' ' else x)
          ['%', hexDigitUpper (c.toNat / 16), hexDigitUpper (c.toNat % 16)] =
          ['%', hexDigitUpper (c.toNat / 16), hexDigitUpper (c.toNat % 16)] := by
        simp [hplus1, hplus2]
      rw [hq, hm, List.cons_append, List.cons_append, List.cons_append, List.nil_append,
        unquoteList_pct _ _ _ (by simp [hhex1, hhex2]), hval1, hval2]
      have hch : c.toNat / 16 * 16 + c.toNat % 16 = c.toNat := by omega
      rw [hch, Char.ofNat_toNat, ih hrest]

/-- String-level round trip: the code's double decoding applied to the
wrapper's parameter value recovers the destination decoded once more —
here, parse_qs's unquote_plus recovers the destination exactly. -/
theorem pyUnquotePlus_pyQuote (d : String) (h : ∀ c ∈ d.toList, c.toNat < 128) :
    pyUnquotePlus (pyQuote d) = d := by
  unfold pyUnquotePlus pyUnquote plusToSpace pyQuote
  rw [List.toList_asString, List.toList_asString, unquote_roundtrip d.toList h,
    String.asString_toList]

/-- Character membership distributes over append. -/
theorem containsChar_append (ch : Char) (xs ys : List Char) :
    containsChar ch (xs ++ ys) = (containsChar ch xs || containsChar ch ys) := by
  unfold containsChar; rw [List.any_append]

/-- Negated membership from a decidable all-check. -/
theorem ne_of_mem_all (p : Char) (l : List Char) (hall : l.all (fun c => c != p) = true) :
    ∀ x ∈ l, x ≠ p := by
  intro x hx
  have := List.all_eq_true.mp hall x hx
  simpa using this

/-- The after-first-occurrence suffix distributes over append when the
character occurs in the first part. -/
theorem afterCharList_append (ch : Char) (xs ys : List Char) (h : containsChar ch xs = true) :
    afterCharList ch (xs ++ ys) = afterCharList ch xs ++ ys := by
  induction xs with
  | nil => simp [containsChar] at h
  | cons a t ih =>
    rw [List.cons_append]
    by_cases ha : (a == ch) = true
    · simp [afterCharList, ha]
    · have haf : (a == ch) = false := by simp at ha; simp [ha]
      have ht : containsChar ch t = true := by
        simpa [containsChar, List.any_cons, haf] using h
      simp [afterCharList, haf, ih ht]

/-- The before-first-occurrence prefix ignores the appended part when
the character occurs in the first part. -/
theorem beforeCharList_append (ch : Char) (xs ys : List Char) (h : containsChar ch xs = true) :
    beforeCharList ch (xs ++ ys) = beforeCharList ch xs := by
  unfold beforeCharList
  induction xs with
  | nil => simp [containsChar] at h
  | cons a t ih =>
    rw [List.cons_append, List.takeWhile_cons, List.takeWhile_cons]
    by_cases ha : (a != ch) = true
    · have haf : (a == ch) = false := by simpa using ha
      have ht : containsChar ch t = true := by
        simpa [containsChar, List.any_cons, haf] using h
      simp [ha, ih ht]
    · simp [ha]

/-- The before-first-occurrence prefix is everything when the character
is absent. -/
theorem beforeCharList_all (ch : Char) (xs : List Char) (h : ∀ x ∈ xs, x ≠ ch) :
    beforeCharList ch xs = xs := by
  unfold beforeCharList
  induction xs with
  | nil => rfl
  | cons a t ih =>
    rw [List.takeWhile_cons]
    have ha : (a != ch) = true := by simp [h a (List.mem_cons_self a t)]
    simp [ha, ih (fun x hx => h x (List.mem_cons_of_mem a hx))]

/-- A field list without separators splits into itself. -/
theorem splitAmp_no_amp (l : List Char) (h : ∀ x ∈ l, x ≠ '&') : splitAmp l = [l] := by
  induction l with
  | nil => rfl
  | cons a t ih =>
    have ha : ¬ ((a == '&') = true) := by simp [h a (List.mem_cons_self a t)]
    rw [splitAmp, if_neg ha, ih (fun x hx => h x (List.mem_cons_of_mem a hx))]

/-- A Boolean prefix stays a prefix under right extension. -/
theorem listIsPre_mono (a b ys : List Char) (h : listIsPre a b = true) :
    listIsPre a (b ++ ys) = true := by
  induction a generalizing b with
  | nil => rfl
  | cons x xs ih =>
    cases b with
    | nil => simp [listIsPre] at h
    | cons y t =>
      rw [List.cons_append]
      rw [listIsPre] at h ⊢
      simp only [Bool.and_eq_true] at h ⊢
      exact ⟨h.1, ih t h.2⟩

/-- The percent-encoding of a non-empty string is non-empty. -/
theorem pyQuote_toList_ne_nil (d : String) (hd : d ≠ "") : (pyQuote d).toList ≠ [] := by
  unfold pyQuote
  rw [List.toList_asString]
  cases hdl : d.toList with
  | nil => exact absurd (by rw [← String.asString_toList d, hdl]; rfl) hd
  | cons c t =>
    rw [List.flatMap_cons]
    intro hnil
    have hne : quoteChar c ≠ [] := by
      unfold quoteChar
      by_cases hu : isUnreservedB c = true
      · rw [if_pos hu]; simp
      · rw [if_neg hu]; simp
    exact hne (List.append_eq_nil.mp hnil).1

/-- Resolution of a wrapper encoding destination d: the code's pipeline
(prefix test, urlparse query, parse_qs lookup of uddg, extra unquote)
yields the destination decoded once more. -/
theorem unwrapDdg_wrap_eq (d : String) (hne : d ≠ "")
    (hAscii : ∀ c ∈ d.toList, c.toNat < 128) :
    unwrapDdgRedirect (ddgWrap d) = pyUnquote d := by
  have hqd := pyQuote_not_special d hAscii
  have hlist : ("https://duckduckgo.com/l/?uddg=" ++ pyQuote d).toList =
      "https://duckduckgo.com/l/?uddg=".toList ++ (pyQuote d).toList := rfl
  have hpre : strStartsWith "https://duckduckgo.com/l/" (ddgWrap d) = true := by
    unfold strStartsWith ddgWrap
    rw [hlist]
    exact listIsPre_mono _ _ _ (by decide)
  have hquery : pyQueryOf (ddgWrap d) =
      ("uddg=".toList ++ (pyQuote d).toList).asString := by
    unfold pyQueryOf ddgWrap
    rw [hlist]
    rw [beforeCharList_all '#' _ ?hnohash]
    case hnohash =>
      intro x hx
      rcases List.mem_append.mp hx with h1 | h1
      · exact ne_of_mem_all '#' _ (by decide) x h1
      · exact (hqd x h1).1
    rw [afterCharList_append '?' _ _ (by decide)]
    have hconc : afterCharList '?' "https://duckduckgo.com/l/?uddg=".toList =
        "uddg=".toList := by decide
    rw [hconc]
  have hparse : parseQsFirst (pyQueryOf (ddgWrap d)) "uddg" =
      some (pyUnquotePlus (pyQuote d)) := by
    rw [hquery]
    unfold parseQsFirst
    rw [List.toList_asString]
    rw [splitAmp_no_amp _ ?hnoamp]
    case hnoamp =>
      intro x hx
      rcases List.mem_append.mp hx with h1 | h1
      · exact ne_of_mem_all '&' _ (by decide) x h1
      · exact (hqd x h1).2
    rw [findParamFirst]
    have hcont : containsChar '=' ("uddg=".toList ++ (pyQuote d).toList) = true := by
      rw [containsChar_append]
      have hl : containsChar '=' "uddg=".toList = true := by decide
      rw [hl, Bool.true_or]
    rw [if_pos hcont]
    have hafter : afterCharList '=' ("uddg=".toList ++ (pyQuote d).toList) =
        (pyQuote d).toList := by
      rw [afterCharList_append '=' _ _ (by decide)]
      have hl : afterCharList '=' "uddg=".toList = [] := by decide
      rw [hl, List.nil_append]
    rw [hafter]
    have hbefore : beforeCharList '=' ("uddg=".toList ++ (pyQuote d).toList) =
        "uddg".toList := by
      rw [beforeCharList_append '=' _ _ (by decide)]
      decide
    rw [hbefore]
    have hname : (pyUnquotePlus ("uddg".toList.asString) == "uddg") = true := by decide
    rcases hqlist : (pyQuote d).toList with _ | ⟨v0, v1⟩
    · exact absurd hqlist (pyQuote_toList_ne_nil d hne)
    · dsimp only
      rw [if_pos hname, ← hqlist, String.asString_toList]
  unfold unwrapDdgRedirect
  rw [if_pos hpre, hparse]
  dsimp only
  rw [pyUnquotePlus_pyQuote d hAscii]

/-- C4 (amended): for every ASCII destination URL D, resolving the
redirect wrapper encoding D returns D with one further unquote applied
(the code decodes twice: parse_qs already unquotes the parameter) — in
particular exactly D whenever D contains no percent sign; for every
wrapper whose uddg lookup fails and for every non-wrapper URL,
resolution returns the original URL unchanged, and no path raises. -/
theorem unwrapDdgRedirect_resolution (d : String) (hne : d ≠ "")
    (hAscii : ∀ c ∈ d.toList, c.toNat < 128) :
    unwrapDdgRedirect (ddgWrap d) = pyUnquote d ∧
    ((∀ c ∈ d.toList, c ≠ '%') → unwrapDdgRedirect (ddgWrap d) = d) ∧
    (∀ u, strStartsWith "https://duckduckgo.com/l/" u = true →
      parseQsFirst (pyQueryOf u) "uddg" = none → unwrapDdgRedirect u = u) ∧
    (∀ u, strStartsWith "https://duckduckgo.com/l/" u = false → unwrapDdgRedirect u = u) := by
  refine ⟨unwrapDdg_wrap_eq d hne hAscii, ?_, ?_, ?_⟩
  · intro hnp
    rw [unwrapDdg_wrap_eq d hne hAscii]
    unfold pyUnquote
    rw [unquoteList_no_pct d.toList hnp, String.asString_toList]
  · intro u hu hnone
    unfold unwrapDdgRedirect
    rw [if_pos hu, hnone]
  · intro u hu
    unfold unwrapDdgRedirect
    rw [if_neg (by simp [hu])]

/-- Witness for the amended C4: the wrapper encoding the percent-free
destination https://example.com/page resolves to exactly that
destination, and a wrapper with no uddg parameter is returned
unchanged. -/
theorem unwrapDdgRedirect_resolution_witness :
    unwrapDdgRedirect (ddgWrap "https://example.com/page") = "https://example.com/page" ∧
    unwrapDdgRedirect "https://duckduckgo.com/l/?x=1" = "https://duckduckgo.com/l/?x=1" := by
  constructor
  · exact (unwrapDdgRedirect_resolution "https://example.com/page" (by decide)
      (by decide)).2.1 (by decide)
  · exact (unwrapDdgRedirect_resolution "https://example.com/page" (by decide)
      (by decide)).2.2.1 "https://duckduckgo.com/l/?x=1" (by decide) (by decide)

/-- C4 counterexample: the wrapper encoding the destination
https://example.com/a%2Fb — a URL containing a percent-escape of its
own — resolves to https://example.com/a/b, not to the destination:
the decoded embedded parameter is decoded a second time. -/
theorem unwrapDdgRedirect_counterexample :
    unwrapDdgRedirect (ddgWrap "https://example.com/a%2Fb") = "https://example.com/a/b" ∧
    "https://example.com/a/b" ≠ "https://example.com/a%2Fb" := by
  exact ⟨by decide, by decide⟩
